import Mathlib

/-!
A shallow embedding of `src/astrokat/noisediode.py` and of the two constants it
imports from the package root (`_DEFAULT_LEAD_TIME`, `max_cycle_len`, which are
not under `src/` and are therefore modelled from the spec).

Conventions of the embedding:

* Python floats are modelled as exact rationals (`ℚ`); the claims under study are
  about the design-level arithmetic of the module, not about IEEE-754 rounding.
  The single place where a NaN arises (`np.mean` of an empty list) is modelled
  explicitly via `Option ℚ` (`none` = NaN).
* Exceptions are modelled with `Except PyErr`.  CPython semantics are kept:
  `time.sleep` raises `ValueError` on a negative argument, `int(nan)` raises
  `ValueError`, and reading a local variable that was never assigned raises
  `UnboundLocalError`.
* KATCP reply arguments are modelled as already-parsed numbers; the `informs`
  part of a reply is only logged by the source and is omitted.
* Calls to `time.time()` are modelled by explicit parameters (`n1`, `n2`, ...)
  passed in source order; only the readings that feed computations are kept,
  readings used purely in log text are dropped together with the logging.
* Each dispatched `dig_noise_source` request is recorded in a trace
  (`List Dispatch`); an exception aborts the run but the requests already
  issued remain in the trace, as they do in Python.
-/

namespace Noisediode

/-- Python exception classes raised by the embedded code. -/
inductive PyErr
  | valueError
  | indexError
  | keyError
  | unboundLocal
  | runtimeError
  deriving DecidableEq

/-- Result of one `ped.req.dig_noise_source(timestamp, on_fraction, cycle_length)`
call: the endpoint either raises `ValueError` or returns a reply whose positional
arguments are modelled as parsed numbers. -/
inductive ReqResult
  | valueError
  | reply (args : List ℚ)

/-- The `kat` container object: dry-run flag, subarray antenna names (`kat.ants`),
the per-antenna digitiser request behaviour (`getattr(kat, ant).req.dig_noise_source`,
a function of antenna name, timestamp, on-fraction and cycle length), and the
current sub-band sensor value. -/
structure Kat where
  dry_run : Bool
  ants : List String
  req : String → ℚ → ℚ → ℚ → ReqResult
  sub_band : String

/-- The `nd_setup` dict with keys `antennas`, `cycle_len`, `on_frac`. -/
structure NdSetup where
  antennas : String
  cycle_len : ℚ
  on_frac : ℚ
  deriving DecidableEq

/-- One issued `dig_noise_source` request: which antenna it went to and the
three positional arguments it carried. -/
structure Dispatch where
  ant : String
  timestamp : ℚ
  on_fraction : ℚ
  cycle_length : ℚ
  deriving DecidableEq

/-- Lexicographic comparison of char lists by code point: the order Python uses
on `str`. -/
def chLe : List Char → List Char → Bool
  | [], _ => true
  | _ :: _, [] => false
  | a :: as, b :: bs => if a = b then chLe as bs else decide (a.toNat < b.toNat)

/-- Lexicographic order on strings, as Python compares `str` values. -/
def strLe (a b : String) : Bool := chLe a.data b.data

/-- The propositional form of `strLe`, used as the `sorted` order. -/
def strOrder (a b : String) : Prop := strLe a b = true

instance : DecidableRel strOrder := fun _ _ => instDecidableEqBool _ _

/-- Python `sorted` on a list of strings. -/
def pySorted (l : List String) : List String := List.insertionSort strOrder l

/-- Helper for `pySplitComma`: split a char list at every comma. -/
def splitCommaAux : List Char → List Char → List (List Char)
  | [], acc => [acc.reverse]
  | c :: cs, acc =>
    if c = ',' then acc.reverse :: splitCommaAux cs [] else splitCommaAux cs (c :: acc)

/-- Python `s.split(",")`. -/
def pySplitComma (s : String) : List String :=
  (splitCommaAux s.data []).map String.mk

/-- Python `sep.join(l)`. -/
def pyJoin (sep : String) : List String → String
  | [] => ""
  | [a] => a
  | a :: b :: rest => a ++ sep ++ pyJoin sep (b :: rest)

/-- Char-list version of `l1` being a contiguous run of `l2`, used for the Python
substring test `a in b` on strings. -/
def startsWithCh : List Char → List Char → Bool
  | [], _ => true
  | _ :: _, [] => false
  | a :: as, b :: bs => a = b && startsWithCh as bs

/-- Python substring membership `a in b` for strings. -/
def containsCh (p : List Char) : List Char → Bool
  | [] => startsWithCh p []
  | b :: bs => startsWithCh p (b :: bs) || containsCh p bs

/-- The whitespace set removed by Python `str.strip()`. -/
def pySpace (c : Char) : Bool :=
  c = ' ' || c = '\t' || c = '\n' || c = '\r' || c = '\x0B' || c = '\x0C'

/-- Python `s.strip()`. -/
def pyStrip (s : String) : String :=
  String.mk (((s.data.dropWhile pySpace).reverse.dropWhile pySpace).reverse)

/-- Modelled from the spec: `_DEFAULT_LEAD_TIME`, the fixed system default lead
time, imported from the package root which is not under `src/`.  The spec only
requires a concrete positive constant; it is fixed here at 5 seconds. -/
def _DEFAULT_LEAD_TIME : ℚ := 5

/-- Modelled from the spec: `max_cycle_len`, the band-dependent maximum
duty-cycle length, imported from the package root which is not under `src/`.
A fixed lookup from the sub-band identifier; the L-band bound is 20 seconds
(stated in the `pattern` docstring of the source); an unrecognized sub-band
fails loudly rather than falling back silently. -/
def max_cycle_len (band : String) : Except PyErr ℚ :=
  if band = "l" then .ok 20 else .error .keyError

/-- `_get_max_cycle_len(kat)`: live mode queries the sub-band sensor, dry-run
mode uses the L-band default. -/
def _get_max_cycle_len (kat : Kat) : Except PyErr ℚ :=
  if kat.dry_run = false then max_cycle_len kat.sub_band else max_cycle_len "l"

/-- `_eval_lead_time_(lead_time)`: `float(lead_time or _DEFAULT_LEAD_TIME)`;
Python treats both `None` and `0` as falsy. -/
def _eval_lead_time_ : Option ℚ → ℚ
  | none => _DEFAULT_LEAD_TIME
  | some x => if x = 0 then _DEFAULT_LEAD_TIME else x

/-- `_set_time_(lead_time)`: current time plus resolved lead time; the
`time.time()` reading is the explicit argument `now`. -/
def _set_time_ (lead_time : Option ℚ) (now : ℚ) : ℚ := now + _eval_lead_time_ lead_time

/-- `_nd_log_msg_(ant, reply, informs)`: reads positional arguments 1..3 of the
reply (actual timestamp, on-fraction, cycle length) and returns the actual
timestamp; a reply shorter than 4 arguments raises `IndexError` here. -/
def _nd_log_msg_ (args : List ℚ) : Except PyErr ℚ :=
  match args[1]?, args[2]?, args[3]? with
  | some t, some _, some _ => .ok t
  | _, _, _ => .error .indexError

/-- Dict lookup for the reply dict passed to `_katcp_reply_`; keys are antenna
names.  The source only looks up keys that are present. -/
def dictGet (d : List (String × List ℚ)) (k : String) : List ℚ :=
  match d.find? (fun p => decide (p.1 = k)) with
  | some p => p.2
  | none => []

/-- The loop body of `_katcp_reply_`: iterate the reply dict in sorted key
order, keeping the Python local `timestamp` as an `Option ℚ` accumulator that
starts unassigned; a reply with fewer than 2 arguments is skipped with
`continue` and leaves the local unassigned. -/
def katcpReplyFold (d : List (String × List ℚ)) :
    List String → Option ℚ → Except PyErr (Option ℚ)
  | [], acc => .ok acc
  | ant :: rest, acc =>
    if (dictGet d ant).length < 2 then katcpReplyFold d rest acc
    else
      match _nd_log_msg_ (dictGet d ant) with
      | .error e => .error e
      | .ok t => katcpReplyFold d rest (some t)

/-- `_katcp_reply_(dig_katcp_replies)`: returns the local `timestamp` after the
loop; if every entry was skipped the local was never assigned and the `return`
raises `UnboundLocalError`. -/
def _katcp_reply_ (d : List (String × List ℚ)) : Except PyErr ℚ :=
  match katcpReplyFold d (pySorted (d.map Prod.fst)) none with
  | .error e => .error e
  | .ok (some t) => .ok t
  | .ok none => .error .unboundLocal

/-- The per-antenna loop of `_set_dig_nd_`: dispatch each antenna at the current
timestamp; a `ValueError` from the request skips the antenna (including the
cycle advance); in live mode the acknowledged timestamp is collected through
`_katcp_reply_`; when `cycle` is set the timestamp advances by
`cycle_length * on_fraction` after a non-skipped dispatch. -/
def setDigLoop (kat : Kat) (on_fraction cycle_length : ℚ) (cycle : Bool) :
    List String → ℚ → List ℚ → List Dispatch →
      List Dispatch × Except PyErr (ℚ × List ℚ)
  | [], timestamp, timestamps, trace => (trace, .ok (timestamp, timestamps))
  | ant :: rest, timestamp, timestamps, trace =>
    match kat.req ant timestamp on_fraction cycle_length with
    | .valueError =>
        setDigLoop kat on_fraction cycle_length cycle rest timestamp timestamps
          (trace ++ [⟨ant, timestamp, on_fraction, cycle_length⟩])
    | .reply args =>
        if kat.dry_run then
          setDigLoop kat on_fraction cycle_length cycle rest
            (if cycle then timestamp + cycle_length * on_fraction else timestamp)
            timestamps (trace ++ [⟨ant, timestamp, on_fraction, cycle_length⟩])
        else
          match _katcp_reply_ [(ant, args)] with
          | .error e => (trace ++ [⟨ant, timestamp, on_fraction, cycle_length⟩], .error e)
          | .ok t =>
              setDigLoop kat on_fraction cycle_length cycle rest
                (if cycle then timestamp + cycle_length * on_fraction else timestamp)
                (timestamps ++ [t])
                (trace ++ [⟨ant, timestamp, on_fraction, cycle_length⟩])

/-- The antenna list, cycle length and on-fraction that `_set_dig_nd_` computes
from its arguments: either from the `nd_setup` dict or from the on/off defaults
(`cycle_length = 1`, `on_fraction = switch`). -/
def ndParams (kat : Kat) (nd_setup : Option NdSetup) (switch : ℚ) :
    List String × ℚ × ℚ :=
  match nd_setup with
  | some s => (pySplitComma s.antennas, s.cycle_len, s.on_frac)
  | none => (kat.ants, 1, switch)

/-- The dispatch loop of `_set_dig_nd_` run over the sorted antenna list. -/
def setDigRun (kat : Kat) (timestamp : ℚ) (nd_setup : Option NdSetup)
    (switch : ℚ) (cycle : Bool) : List Dispatch × Except PyErr (ℚ × List ℚ) :=
  setDigLoop kat (ndParams kat nd_setup switch).2.2 (ndParams kat nd_setup switch).2.1
    cycle (pySorted (ndParams kat nd_setup switch).1) timestamp [] []

/-- `np.mean` of a list; the empty list yields NaN, modelled as `none`. -/
def npMean (xs : List ℚ) : Option ℚ :=
  if xs.length = 0 then none else some (xs.sum / xs.length)

/-- `_set_dig_nd_(kat, timestamp, nd_setup, switch, cycle)`: run the per-antenna
loop; in live mode replace the timestamp by the mean of the collected
acknowledgements.  The completion log then evaluates `int(timestamp)`, which
raises `ValueError` when the mean is NaN (empty acknowledgement list). -/
def _set_dig_nd_ (kat : Kat) (timestamp : ℚ) (nd_setup : Option NdSetup)
    (switch : ℚ) (cycle : Bool) : List Dispatch × Except PyErr ℚ :=
  match setDigRun kat timestamp nd_setup switch cycle with
  | (trace, .error e) => (trace, .error e)
  | (trace, .ok (ts, timestamps)) =>
    if kat.dry_run then (trace, .ok ts)
    else
      match npMean timestamps with
      | none => (trace, .error .valueError)
      | some m => (trace, .ok m)

/-- `_switch_on_off_(kat, timestamp, switch)`: looks the switch value up in the
`{0: 'off', 1: 'on'}` dict first (a `KeyError` for any other value), then
dispatches with no pattern and `cycle=False`. -/
def _switch_on_off_ (kat : Kat) (timestamp : ℚ) (switch : ℚ) :
    List Dispatch × Except PyErr ℚ :=
  if switch = 0 ∨ switch = 1 then _set_dig_nd_ kat timestamp none switch false
  else ([], .error .keyError)

/-- CPython `time.sleep`: raises `ValueError` when the requested duration is
negative, otherwise returns. -/
def timeSleep (d : ℚ) : Except PyErr Unit :=
  if d < 0 then .error .valueError else .ok ()

/-- `float(timestamp or _set_time_(lead_time))` as used by `on` and `off`:
an absent or zero timestamp is falsy and is replaced by now plus lead time. -/
def pyOrTs (timestamp : Option ℚ) (lead_time : Option ℚ) (now : ℚ) : ℚ :=
  match timestamp with
  | some t => if t = 0 then _set_time_ lead_time now else t
  | none => _set_time_ lead_time now

/-- `on(kat, timestamp, lead_time)` (named `nd_on` because `on` is not usable as
a Lean identifier): resolve the timestamp (reading `n1`), switch on across the
fleet, then sleep for `true_timestamp - time.time()` (reading `n2`) and return
the reconciled timestamp. -/
def nd_on (kat : Kat) (timestamp : Option ℚ) (lead_time : Option ℚ)
    (n1 n2 : ℚ) : List Dispatch × Except PyErr ℚ :=
  match _switch_on_off_ kat (pyOrTs timestamp lead_time n1) 1 with
  | (tr, .error e) => (tr, .error e)
  | (tr, .ok tt) =>
    match timeSleep (tt - n2) with
    | .error e => (tr, .error e)
    | .ok _ => (tr, .ok tt)

/-- `off(kat, timestamp, lead_time)`: like `nd_on` with `switch=0` and no sleep
after synchronization. -/
def off (kat : Kat) (timestamp : Option ℚ) (lead_time : Option ℚ)
    (n1 : ℚ) : List Dispatch × Except PyErr ℚ :=
  _switch_on_off_ kat (pyOrTs timestamp lead_time n1) 0

/-- The antenna-set resolution of `pattern`: the `antennas` field is first
overwritten with the subarray list; `'all'` keeps it with `cycle=False`,
`'cycle'` keeps it with `cycle=True`, anything else is split on commas,
stripped, and filtered by the Python substring test `ant in sb_ants`. -/
def resolveAntennas (nd_antennas sb_ants : String) : Bool × String :=
  if nd_antennas = "all" then (false, sb_ants)
  else if nd_antennas = "cycle" then (true, sb_ants)
  else
    (false,
      pyJoin ","
        (((pySplitComma nd_antennas).map pyStrip).filter
          (fun a => containsCh a.data sb_ants.data)))

/-- `pattern(kat, nd_setup, lead_time)`: validate the cycle length against the
band maximum (`RuntimeError` when exceeded, before any dispatch), resolve the
start time (reading `n1`) and the antenna set (mutating the caller's
`nd_setup['antennas']`, returned here as the middle component), dispatch, then
sleep until the reconciled timestamp (reading `n2`). -/
def pattern (kat : Kat) (nd_setup : NdSetup) (lead_time : Option ℚ)
    (n1 n2 : ℚ) : List Dispatch × NdSetup × Except PyErr Bool :=
  match _get_max_cycle_len kat with
  | .error e => ([], nd_setup, .error e)
  | .ok maxLen =>
    if nd_setup.cycle_len > maxLen then ([], nd_setup, .error .runtimeError)
    else
      match resolveAntennas nd_setup.antennas (pyJoin "," kat.ants) with
      | (cycle, ants') =>
        match _set_dig_nd_ kat (_set_time_ lead_time n1)
            (some ⟨ants', nd_setup.cycle_len, nd_setup.on_frac⟩) 0 cycle with
        | (tr, .error e) => (tr, ⟨ants', nd_setup.cycle_len, nd_setup.on_frac⟩, .error e)
        | (tr, .ok ts) =>
          match timeSleep (ts - n2) with
          | .error e => (tr, ⟨ants', nd_setup.cycle_len, nd_setup.on_frac⟩, .error e)
          | .ok _ => (tr, ⟨ants', nd_setup.cycle_len, nd_setup.on_frac⟩, .ok true)

/-- The final block shared by both branches of `trigger`: switch off at
`off_time` (reading `n1` inside `off`), then sleep for
`off_time - time.time()` (reading `n2`). -/
def trigger_tail (kat : Kat) (off_time : ℚ) (n1 n2 : ℚ) :
    List Dispatch × Except PyErr Bool :=
  match off kat (some off_time) (some _DEFAULT_LEAD_TIME) n1 with
  | (tr, .error e) => (tr, .error e)
  | (tr, .ok _) =>
    match timeSleep (off_time - n2) with
    | .error e => (tr, .error e)
    | .ok _ => (tr, .ok true)

/-- `trigger(kat, duration, lead_time)`: `None` duration is a no-op; a duration
longer than the lead time is realized as on / sleep / off; a shorter one is
folded into a single duty-cycle pulse via `pattern` with
`on_frac = duration / max_cycle_len`.  Clock readings `n1..n5` are passed in
source order. -/
def trigger (kat : Kat) (duration : Option ℚ) (lead_time : Option ℚ)
    (n1 n2 n3 n4 n5 : ℚ) : List Dispatch × Except PyErr Bool :=
  match duration with
  | none => ([], .ok true)
  | some dur =>
    if dur > _eval_lead_time_ lead_time then
      match nd_on kat (some (_set_time_ (some (_eval_lead_time_ lead_time)) n1))
          (some _DEFAULT_LEAD_TIME) n2 n3 with
      | (tr, .error e) => (tr, .error e)
      | (tr, .ok on_time) =>
        match timeSleep (min (dur - _eval_lead_time_ lead_time) (_eval_lead_time_ lead_time)) with
        | .error e => (tr, .error e)
        | .ok _ =>
          match trigger_tail kat (on_time + dur) n4 n5 with
          | (tr2, r) => (tr ++ tr2, r)
    else
      match _get_max_cycle_len kat with
      | .error e => ([], .error e)
      | .ok cycle_len =>
        match pattern kat ⟨"all", cycle_len, dur / cycle_len⟩
            (some (_eval_lead_time_ lead_time)) n1 n2 with
        | (tr, _, .error e) => (tr, .error e)
        | (tr, _, .ok _) =>
          match trigger_tail kat (_set_time_ (some (_eval_lead_time_ lead_time)) n3) n4 n5 with
          | (tr2, r) => (tr ++ tr2, r)

/-- Minimum of a list of rationals (used only on non-empty lists). -/
def listMin : List ℚ → ℚ
  | [] => 0
  | [x] => x
  | x :: y :: xs => min x (listMin (y :: xs))

/-- Maximum of a list of rationals (used only on non-empty lists). -/
def listMax : List ℚ → ℚ
  | [] => 0
  | [x] => x
  | x :: y :: xs => max x (listMax (y :: xs))

/-- The timestamp value the dry-run branch of the dispatch loop ends with:
the input advanced by `cycle_length * on_fraction` once per non-skipped
antenna when `cycle` is set. -/
def dryAdvance (kat : Kat) (onf cl : ℚ) (cycle : Bool) : List String → ℚ → ℚ
  | [], t => t
  | a :: rest, t =>
    match kat.req a t onf cl with
    | .valueError => dryAdvance kat onf cl cycle rest t
    | .reply _ => dryAdvance kat onf cl cycle rest (if cycle then t + cl * onf else t)

/-- The dispatch trace produced by a loop run in which no dispatch is skipped:
one request per antenna, staggered by `cycle_length * on_fraction` when `cycle`
is set. -/
def staggerTs (onf cl : ℚ) (cycle : Bool) : List String → ℚ → List Dispatch
  | [], _ => []
  | a :: rest, t =>
    ⟨a, t, onf, cl⟩ :: staggerTs onf cl cycle rest (if cycle then t + cl * onf else t)

/-- A `kat` whose every request succeeds with a well-formed echo reply. -/
def goodReq (kat : Kat) (onf cl : ℚ) : Prop :=
  ∀ a t, ∃ args, kat.req a t onf cl = .reply args ∧ 4 ≤ args.length

/-- Live 3-antenna fleet in which antenna `m022` answers with a single-argument
(malformed) reply and the other two echo the request. -/
def katC1 : Kat :=
  ⟨false, ["m011", "m022", "m033"],
    fun a t o c => if a = "m022" then .reply [7] else .reply [0, t, o, c], "l"⟩

/-- Live single-antenna fleet whose antenna echoes the request timestamp. -/
def katC2 : Kat := ⟨false, ["m011"], fun _ t o c => .reply [0, t, o, c], "l"⟩

/-- Dry-run two-antenna fleet. -/
def katC3 : Kat := ⟨true, ["m011", "m022"], fun _ _ _ _ => .reply [], "l"⟩

/-- A cyclic noise-diode setup over two antennas with advance `20 * (1/10) = 2`. -/
def ndC3 : NdSetup := ⟨"m011,m022", 20, 1/10⟩

/-- Dry-run single-antenna fleet used for the cycle-length guard. -/
def katC4 : Kat := ⟨true, ["m011"], fun _ _ _ _ => .reply [], "l"⟩

/-- Dry-run two-antenna fleet used for the setup-mutation check. -/
def katC5 : Kat := ⟨true, ["m011", "m022"], fun _ _ _ _ => .reply [], "l"⟩

/-- Live two-antenna fleet answering with well-formed echo replies. -/
def katC7 : Kat := ⟨false, ["m011", "m022"], fun _ t o c => .reply [0, t, o, c], "l"⟩

/-- A cyclic setup whose antenna list is given in reverse lexicographic order. -/
def ndC7 : NdSetup := ⟨"m02,m01", 10, 1/2⟩

/-- Live two-antenna fleet acknowledging fixed timestamps 100 and 200. -/
def katC8 : Kat :=
  ⟨false, ["m011", "m022"],
    fun a _ o c => .reply [0, if a = "m011" then 100 else 200, o, c], "l"⟩

/-- Dry-run single-antenna fleet used for the trigger on-fraction analysis. -/
def katC9 : Kat := ⟨true, ["m011"], fun _ _ _ _ => .reply [], "l"⟩

/-- Live two-antenna fleet in which every request raises `ValueError`. -/
def katC10 : Kat := ⟨false, ["m011", "m022"], fun _ _ _ _ => .valueError, "l"⟩

lemma char_toNat_inj {a b : Char} (h : a.toNat = b.toNat) : a = b :=
  Char.eq_of_val_eq (UInt32.ext h)

lemma chLe_total : ∀ a b : List Char, chLe a b = true ∨ chLe b a = true
  | [], _ => Or.inl rfl
  | _ :: _, [] => Or.inr rfl
  | a :: as, b :: bs => by
    by_cases h : a = b
    · subst h
      simpa [chLe] using chLe_total as bs
    · rcases Nat.lt_or_ge a.toNat b.toNat with hlt | hge
      · left
        simp [chLe, h, hlt]
      · rcases Nat.eq_or_lt_of_le hge with heq | hgt
        · exact absurd (char_toNat_inj heq.symm) h
        · right
          simp [chLe, Ne.symm h, hgt]

lemma chLe_trans : ∀ a b c : List Char,
    chLe a b = true → chLe b c = true → chLe a c = true
  | [], _, _, _, _ => rfl
  | _ :: _, [], _, h1, _ => by simp [chLe] at h1
  | _ :: _, _ :: _, [], _, h2 => by simp [chLe] at h2
  | a :: as, b :: bs, c :: cs, h1, h2 => by
    by_cases hab : a = b <;> by_cases hbc : b = c
    · subst hab; subst hbc
      simp only [chLe, if_pos rfl] at h1 h2 ⊢
      exact chLe_trans as bs cs h1 h2
    · subst hab
      simp only [chLe, if_pos rfl] at h1
      simp only [chLe, if_neg hbc, decide_eq_true_eq] at h2
      have hac : a ≠ c := fun he => absurd (he ▸ h2) (Nat.lt_irrefl _)
      simp [chLe, hac, h2]
    · subst hbc
      simp only [chLe, if_neg hab, decide_eq_true_eq] at h1
      simp only [chLe, if_pos rfl] at h2
      have hac : a ≠ b := hab
      simp [chLe, hac, h1]
    · simp only [chLe, if_neg hab, decide_eq_true_eq] at h1
      simp only [chLe, if_neg hbc, decide_eq_true_eq] at h2
      have hlt : a.toNat < c.toNat := Nat.lt_trans h1 h2
      have hac : a ≠ c := fun he => absurd (he ▸ hlt) (Nat.lt_irrefl _)
      simp [chLe, hac, hlt]

lemma chLe_antisymm : ∀ a b : List Char, chLe a b = true → chLe b a = true → a = b
  | [], [], _, _ => rfl
  | _ :: _, [], h1, _ => by simp [chLe] at h1
  | [], _ :: _, _, h2 => by simp [chLe] at h2
  | a :: as, b :: bs, h1, h2 => by
    by_cases h : a = b
    · subst h
      simp only [chLe, if_pos rfl] at h1 h2
      rw [chLe_antisymm as bs h1 h2]
    · simp only [chLe, if_neg h, decide_eq_true_eq] at h1
      simp only [chLe, if_neg (Ne.symm h), decide_eq_true_eq] at h2
      exact absurd (Nat.lt_trans h1 h2) (Nat.lt_irrefl _)

instance : IsTotal String strOrder := ⟨fun a b => chLe_total a.data b.data⟩

instance : IsTrans String strOrder :=
  ⟨fun a b c h1 h2 => chLe_trans a.data b.data c.data h1 h2⟩

instance : IsAntisymm String strOrder :=
  ⟨fun a b h1 h2 => by
    cases a with
    | mk da =>
      cases b with
      | mk db => exact congrArg String.mk (chLe_antisymm da db h1 h2)⟩

lemma pySorted_sorted (l : List String) : List.Sorted strOrder (pySorted l) :=
  List.sorted_insertionSort strOrder l

lemma pySorted_perm (l : List String) : (pySorted l).Perm l :=
  List.perm_insertionSort strOrder l

lemma pySorted_of_perm {l1 l2 : List String} (h : l1.Perm l2) :
    pySorted l1 = pySorted l2 :=
  List.eq_of_perm_of_sorted
    ((pySorted_perm l1).trans (h.trans (pySorted_perm l2).symm))
    (pySorted_sorted l1) (pySorted_sorted l2)

lemma listMin_mul_le_sum : ∀ xs : List ℚ, xs ≠ [] → listMin xs * xs.length ≤ xs.sum
  | [], h => absurd rfl h
  | [x], _ => by simp [listMin]
  | x :: y :: xs, _ => by
    have ih := listMin_mul_le_sum (y :: xs) (by simp)
    have hmin1 : listMin (x :: y :: xs) ≤ x := min_le_left _ _
    have hmin2 : listMin (x :: y :: xs) ≤ listMin (y :: xs) := min_le_right _ _
    have hlen : (0 : ℚ) ≤ ((y :: xs).length : ℚ) := Nat.cast_nonneg _
    have hmul : listMin (x :: y :: xs) * ((y :: xs).length : ℚ)
        ≤ listMin (y :: xs) * ((y :: xs).length : ℚ) :=
      mul_le_mul_of_nonneg_right hmin2 hlen
    have hlc : ((x :: y :: xs).length : ℚ) = ((y :: xs).length : ℚ) + 1 := by
      push_cast [List.length_cons]
      ring
    calc listMin (x :: y :: xs) * ((x :: y :: xs).length : ℚ)
        = listMin (x :: y :: xs) * ((y :: xs).length : ℚ)
            + listMin (x :: y :: xs) := by rw [hlc]; ring
      _ ≤ (y :: xs).sum + x := by
          have := hmul.trans ih
          linarith
      _ = (x :: y :: xs).sum := by simp [List.sum_cons]; ring

lemma sum_le_listMax_mul : ∀ xs : List ℚ, xs ≠ [] → xs.sum ≤ listMax xs * xs.length
  | [], h => absurd rfl h
  | [x], _ => by simp [listMax]
  | x :: y :: xs, _ => by
    have ih := sum_le_listMax_mul (y :: xs) (by simp)
    have hmax1 : x ≤ listMax (x :: y :: xs) := le_max_left _ _
    have hmax2 : listMax (y :: xs) ≤ listMax (x :: y :: xs) := le_max_right _ _
    have hlen : (0 : ℚ) ≤ ((y :: xs).length : ℚ) := Nat.cast_nonneg _
    have hmul : listMax (y :: xs) * ((y :: xs).length : ℚ)
        ≤ listMax (x :: y :: xs) * ((y :: xs).length : ℚ) :=
      mul_le_mul_of_nonneg_right hmax2 hlen
    have hlc : ((x :: y :: xs).length : ℚ) = ((y :: xs).length : ℚ) + 1 := by
      push_cast [List.length_cons]
      ring
    calc (x :: y :: xs).sum = (y :: xs).sum + x := by simp [List.sum_cons]; ring
      _ ≤ listMax (x :: y :: xs) * ((y :: xs).length : ℚ)
            + listMax (x :: y :: xs) := by
          have := ih.trans hmul
          linarith
      _ = listMax (x :: y :: xs) * ((x :: y :: xs).length : ℚ) := by rw [hlc]; ring

lemma listMin_le_mean (xs : List ℚ) (h : xs ≠ []) :
    listMin xs ≤ xs.sum / xs.length := by
  have hpos : (0 : ℚ) < (xs.length : ℚ) := by
    have := List.length_pos.mpr h
    exact_mod_cast this
  rw [le_div_iff₀ hpos]
  exact listMin_mul_le_sum xs h

lemma mean_le_listMax (xs : List ℚ) (h : xs ≠ []) :
    xs.sum / xs.length ≤ listMax xs := by
  have hpos : (0 : ℚ) < (xs.length : ℚ) := by
    have := List.length_pos.mpr h
    exact_mod_cast this
  rw [div_le_iff₀ hpos]
  exact (sum_le_listMax_mul xs h).trans_eq (by ring)

lemma set_dig_nd_fst (kat : Kat) (t : ℚ) (nd : Option NdSetup) (sw : ℚ) (cy : Bool) :
    (_set_dig_nd_ kat t nd sw cy).1 = (setDigRun kat t nd sw cy).1 := by
  unfold _set_dig_nd_
  rcases h : setDigRun kat t nd sw cy with ⟨tr, r⟩
  cases r with
  | error e => simp
  | ok p =>
    rcases p with ⟨ts, tss⟩
    cases hd : kat.dry_run <;> simp [hd] <;> cases npMean tss <;> simp

lemma setDigLoop_mem_onf (kat : Kat) (onf cl : ℚ) (cy : Bool) :
    ∀ (l : List String) (t : ℚ) (ts : List ℚ) (tr : List Dispatch) (d : Dispatch),
      d ∈ (setDigLoop kat onf cl cy l t ts tr).1 →
        d ∈ tr ∨ (d.on_fraction = onf ∧ d.cycle_length = cl)
  | [], t, ts, tr, d => by
    intro hd
    exact Or.inl hd
  | a :: l, t, ts, tr, d => by
    intro hd
    have step : ∀ tr' : List Dispatch,
        d ∈ tr' ++ [(⟨a, t, onf, cl⟩ : Dispatch)] →
          d ∈ tr' ∨ (d.on_fraction = onf ∧ d.cycle_length = cl) := by
      intro tr' h
      rcases List.mem_append.mp h with h | h
      · exact Or.inl h
      · rcases List.mem_singleton.mp h with rfl
        exact Or.inr ⟨rfl, rfl⟩
    rw [setDigLoop] at hd
    cases hreq : kat.req a t onf cl with
    | valueError =>
      rw [hreq] at hd
      rcases setDigLoop_mem_onf kat onf cl cy l t ts _ d hd with h | h
      · exact step tr h
      · exact Or.inr h
    | reply args =>
      rw [hreq] at hd
      cases hdry : kat.dry_run with
      | true =>
        rw [hdry] at hd
        simp only [if_pos rfl] at hd
        rcases setDigLoop_mem_onf kat onf cl cy l _ ts _ d hd with h | h
        · exact step tr h
        · exact Or.inr h
      | false =>
        rw [hdry] at hd
        simp only [Bool.false_eq_true, if_neg (fun h => h)] at hd
        cases hk : _katcp_reply_ [(a, args)] with
        | error e =>
          rw [hk] at hd
          exact step tr hd
        | ok t1 =>
          rw [hk] at hd
          rcases setDigLoop_mem_onf kat onf cl cy l _ _ _ d hd with h | h
          · exact step tr h
          · exact Or.inr h

lemma set_dig_nd_mem_onf (kat : Kat) (t : ℚ) (nd : Option NdSetup) (sw : ℚ)
    (cy : Bool) (d : Dispatch) (hd : d ∈ (_set_dig_nd_ kat t nd sw cy).1) :
    d.on_fraction = (ndParams kat nd sw).2.2 := by
  rw [set_dig_nd_fst] at hd
  unfold setDigRun at hd
  rcases setDigLoop_mem_onf kat _ _ cy _ t [] [] d hd with h | h
  · simp at h
  · exact h.1

lemma switch_on_off_eq (kat : Kat) (ts sw : ℚ) (h : sw = 0 ∨ sw = 1) :
    _switch_on_off_ kat ts sw = _set_dig_nd_ kat ts none sw false :=
  if_pos h

lemma nd_on_fst (kat : Kat) (ts lt : Option ℚ) (n1 n2 : ℚ) :
    (nd_on kat ts lt n1 n2).1 = (_switch_on_off_ kat (pyOrTs ts lt n1) 1).1 := by
  unfold nd_on
  rcases h : _switch_on_off_ kat (pyOrTs ts lt n1) 1 with ⟨tr, r⟩
  cases r with
  | error e => simp
  | ok tt =>
    cases hsl : timeSleep (tt - n2) with
    | error e => simp [hsl]
    | ok u => simp [hsl]

lemma nd_on_mem_onf (kat : Kat) (ts lt : Option ℚ) (n1 n2 : ℚ) (d : Dispatch)
    (hd : d ∈ (nd_on kat ts lt n1 n2).1) : d.on_fraction = 1 := by
  rw [nd_on_fst, switch_on_off_eq kat _ 1 (Or.inr rfl)] at hd
  exact set_dig_nd_mem_onf kat _ none 1 false d hd

lemma off_mem_onf (kat : Kat) (ts lt : Option ℚ) (n1 : ℚ) (d : Dispatch)
    (hd : d ∈ (off kat ts lt n1).1) : d.on_fraction = 0 := by
  unfold off at hd
  rw [switch_on_off_eq kat _ 0 (Or.inl rfl)] at hd
  exact set_dig_nd_mem_onf kat _ none 0 false d hd

lemma pattern_mem_onf (kat : Kat) (s : NdSetup) (lt : Option ℚ) (n1 n2 : ℚ)
    (d : Dispatch) (hd : d ∈ (pattern kat s lt n1 n2).1) : d.on_fraction = s.on_frac := by
  unfold pattern at hd
  split at hd
  · simp at hd
  · split at hd
    · simp at hd
    · split at hd
      rename_i cy ants' hra
      split at hd
      · rename_i tr e hsd
        have hmem := set_dig_nd_mem_onf kat (_set_time_ lt n1)
          (some ⟨ants', s.cycle_len, s.on_frac⟩) 0 cy d (by rw [hsd]; simpa using hd)
        simpa [ndParams] using hmem
      · rename_i tr ts hsd
        have hdm : d ∈ tr := by
          split at hd <;> simpa using hd
        have hmem := set_dig_nd_mem_onf kat (_set_time_ lt n1)
          (some ⟨ants', s.cycle_len, s.on_frac⟩) 0 cy d (by rw [hsd]; exact hdm)
        simpa [ndParams] using hmem

lemma trigger_tail_mem_onf (kat : Kat) (off_time n1 n2 : ℚ) (d : Dispatch)
    (hd : d ∈ (trigger_tail kat off_time n1 n2).1) : d.on_fraction = 0 := by
  unfold trigger_tail at hd
  rcases ho : off kat (some off_time) (some _DEFAULT_LEAD_TIME) n1 with ⟨tr, r⟩
  have htr : d ∈ tr → d.on_fraction = 0 := by
    intro hmem
    exact off_mem_onf kat (some off_time) (some _DEFAULT_LEAD_TIME) n1 d (by rw [ho]; exact hmem)
  rw [ho] at hd
  cases r with
  | error e => simp at hd; exact htr hd
  | ok v =>
    cases hsl : timeSleep (off_time - n2) with
    | error e => rw [hsl] at hd; simp at hd; exact htr hd
    | ok u => rw [hsl] at hd; simp at hd; exact htr hd

lemma setDigLoop_dry (kat : Kat) (onf cl : ℚ) (cy : Bool) (hdry : kat.dry_run = true) :
    ∀ (l : List String) (t : ℚ) (ts : List ℚ) (tr : List Dispatch),
      (setDigLoop kat onf cl cy l t ts tr).2 = .ok (dryAdvance kat onf cl cy l t, ts)
  | [], t, ts, tr => rfl
  | a :: l, t, ts, tr => by
    rw [setDigLoop, dryAdvance]
    cases hreq : kat.req a t onf cl with
    | valueError => exact setDigLoop_dry kat onf cl cy hdry l t ts _
    | reply args =>
      rw [hdry]
      simp only [if_pos rfl]
      exact setDigLoop_dry kat onf cl cy hdry l _ ts _

lemma set_dig_nd_dry (kat : Kat) (t : ℚ) (nd : Option NdSetup) (sw : ℚ) (cy : Bool)
    (hdry : kat.dry_run = true) :
    (_set_dig_nd_ kat t nd sw cy).2 =
      .ok (dryAdvance kat (ndParams kat nd sw).2.2 (ndParams kat nd sw).2.1 cy
        (pySorted (ndParams kat nd sw).1) t) := by
  have h := setDigLoop_dry kat (ndParams kat nd sw).2.2 (ndParams kat nd sw).2.1 cy hdry
    (pySorted (ndParams kat nd sw).1) t [] []
  unfold _set_dig_nd_ setDigRun
  rcases hh : setDigLoop kat (ndParams kat nd sw).2.2 (ndParams kat nd sw).2.1 cy
      (pySorted (ndParams kat nd sw).1) t [] [] with ⟨tr, r⟩
  rw [hh] at h
  simp only at h
  rw [h]
  simp [hdry]

lemma dryAdvance_false (kat : Kat) (onf cl : ℚ) :
    ∀ (l : List String) (t : ℚ), dryAdvance kat onf cl false l t = t
  | [], t => rfl
  | a :: l, t => by
    rw [dryAdvance]
    cases kat.req a t onf cl with
    | valueError => exact dryAdvance_false kat onf cl l t
    | reply args =>
      simp only [Bool.false_eq_true, if_neg (fun h => h)]
      exact dryAdvance_false kat onf cl l t

lemma katcp_reply_single (a : String) (args : List ℚ) (h : 4 ≤ args.length) :
    _katcp_reply_ [(a, args)] = .ok (args.get ⟨1, by omega⟩) := by
  have h1 : args[1]? = some (args.get ⟨1, by omega⟩) := by
    rw [List.getElem?_eq_getElem (by omega)]
    simp
  have h2 : ∃ v2, args[2]? = some v2 := ⟨_, by rw [List.getElem?_eq_getElem (by omega)]⟩
  have h3 : ∃ v3, args[3]? = some v3 := ⟨_, by rw [List.getElem?_eq_getElem (by omega)]⟩
  rcases h2 with ⟨v2, h2⟩
  rcases h3 with ⟨v3, h3⟩
  have hget : dictGet [(a, args)] a = args := by simp [dictGet]
  have hnl : _nd_log_msg_ args = .ok (args.get ⟨1, by omega⟩) := by
    unfold _nd_log_msg_
    rw [h1, h2, h3]
  unfold _katcp_reply_
  have hsort : pySorted ([(a, args)].map Prod.fst) = [a] := by
    simp [pySorted]
  rw [hsort]
  rw [katcpReplyFold, hget]
  rw [if_neg (by omega), hnl]
  rfl

lemma setDigLoop_good (kat : Kat) (onf cl : ℚ) (cy : Bool)
    (hreq : goodReq kat onf cl) :
    ∀ (l : List String) (t : ℚ) (ts : List ℚ) (tr : List Dispatch),
      (setDigLoop kat onf cl cy l t ts tr).1 = tr ++ staggerTs onf cl cy l t
  | [], t, ts, tr => by simp [setDigLoop, staggerTs]
  | a :: l, t, ts, tr => by
    rcases hreq a t with ⟨args, he, hlen⟩
    rw [setDigLoop, he]
    simp only [staggerTs]
    cases hdry : kat.dry_run with
    | true =>
      simp only [eq_self_iff_true, if_true]
      rw [setDigLoop_good kat onf cl cy hreq l _ ts _]
      simp
    | false =>
      simp only [Bool.false_eq_true, if_false]
      rw [katcp_reply_single a args hlen]
      rw [setDigLoop_good kat onf cl cy hreq l _ _ _]
      simp

lemma staggerTs_length (onf cl : ℚ) (cy : Bool) :
    ∀ (l : List String) (t : ℚ), (staggerTs onf cl cy l t).length = l.length
  | [], _ => rfl
  | a :: l, t => by
    simp only [staggerTs]
    simp [staggerTs_length onf cl cy l]

lemma staggerTs_map_ant (onf cl : ℚ) (cy : Bool) :
    ∀ (l : List String) (t : ℚ), (staggerTs onf cl cy l t).map Dispatch.ant = l
  | [], _ => rfl
  | a :: l, t => by
    simp only [staggerTs]
    simp [staggerTs_map_ant onf cl cy l]

lemma staggerTs_get_timestamp (onf cl : ℚ) :
    ∀ (l : List String) (t : ℚ) (i : ℕ) (h : i < (staggerTs onf cl true l t).length),
      ((staggerTs onf cl true l t).get ⟨i, h⟩).timestamp = t + i * (cl * onf)
  | [], t, i, h => by simp [staggerTs] at h
  | a :: l, t, i, h => by
    cases i with
    | zero => simp [staggerTs]
    | succ n =>
      simp only [staggerTs] at h ⊢
      simp only [List.length_cons, List.get_cons_succ]
      rw [staggerTs_get_timestamp onf cl l _ n (by simpa [staggerTs] using h)]
      simp only [eq_self_iff_true, if_true]
      push_cast
      ring

lemma set_dig_nd_good_fst (kat : Kat) (t0 : ℚ) (s : NdSetup) (cy : Bool)
    (hreq : goodReq kat s.on_frac s.cycle_len) :
    (_set_dig_nd_ kat t0 (some s) 0 cy).1 =
      staggerTs s.on_frac s.cycle_len cy (pySorted (pySplitComma s.antennas)) t0 := by
  rw [set_dig_nd_fst]
  unfold setDigRun
  have h := setDigLoop_good kat s.on_frac s.cycle_len cy hreq
    (pySorted (pySplitComma s.antennas)) t0 [] []
  simpa [ndParams] using h

/-- C1: the claim says a malformed (fewer than two positional arguments)
acknowledgement is treated as no acknowledgement for that antenna, with the
fleet dispatch continuing and the mean taken over the remaining antennas.  The
code instead crashes: `_katcp_reply_` skips the assignment of its local
`timestamp` with `continue` and then unconditionally returns that local, which
raises `UnboundLocalError` for the single-entry reply dict it is called with.
This theorem evaluates the model at the failing input: a live 3-antenna fleet
where `m022` replies with one argument; the dispatch aborts with the
`UnboundLocalError` instead of returning the mean of the other two
acknowledgements. -/
theorem C1_short_reply_crashes_fleet :
    (_set_dig_nd_ katC1 1000 none 1 false).2 = .error .unboundLocal := by
  simp +decide [_set_dig_nd_, setDigRun, ndParams, setDigLoop, katC1, _katcp_reply_,
    katcpReplyFold, dictGet, _nd_log_msg_, pySorted, npMean]

/-- C2: counterexample to the claim that a negative sleep duration degenerates
to an immediate return.  A live `on` call whose reconciled timestamp (100) is
already in the past at the sleep (now = 200) raises `ValueError` from
`time.sleep(-100)` instead of returning. -/
theorem C2_counterexample :
    (nd_on katC2 (some 100) (some 5) 0 200).2 = .error .valueError := by
  norm_num [nd_on, _switch_on_off_, _set_dig_nd_, setDigRun, ndParams, setDigLoop,
    katC2, _katcp_reply_, katcpReplyFold, dictGet, _nd_log_msg_, pySorted, npMean,
    pyOrTs, timeSleep]

/-- C2 (amended): when the computed sleep duration `reconciled − now` is
negative, CPython `time.sleep` raises `ValueError` and the operation propagates
it instead of returning; only a non-negative duration returns normally.  Stated
for `on` and for the final block of `trigger`. -/
theorem C2_amended_negative_sleep_raises :
    (∀ (kat : Kat) (ts lt : Option ℚ) (n1 n2 : ℚ) (tr : List Dispatch) (tt : ℚ),
      _switch_on_off_ kat (pyOrTs ts lt n1) 1 = (tr, .ok tt) →
        ((tt - n2 < 0 → (nd_on kat ts lt n1 n2).2 = .error .valueError) ∧
         (0 ≤ tt - n2 → (nd_on kat ts lt n1 n2).2 = .ok tt))) ∧
    (∀ (kat : Kat) (off_time n1 n2 : ℚ) (tr : List Dispatch) (r : ℚ),
      off kat (some off_time) (some _DEFAULT_LEAD_TIME) n1 = (tr, .ok r) →
        ((off_time - n2 < 0 → (trigger_tail kat off_time n1 n2).2 = .error .valueError) ∧
         (0 ≤ off_time - n2 → (trigger_tail kat off_time n1 n2).2 = .ok true))) := by
  constructor
  · intro kat ts lt n1 n2 tr tt h
    constructor
    · intro hneg
      unfold nd_on
      rw [h]
      simp [timeSleep, show tt < n2 by linarith]
    · intro hpos
      unfold nd_on
      rw [h]
      simp [timeSleep, show ¬ tt < n2 by linarith]
  · intro kat off_time n1 n2 tr r h
    constructor
    · intro hneg
      unfold trigger_tail
      rw [h]
      simp [timeSleep, show off_time < n2 by linarith]
    · intro hpos
      unfold trigger_tail
      rw [h]
      simp [timeSleep, show ¬ off_time < n2 by linarith]

/-- C2 witness: the amended statement applied at concrete inputs — a
non-negative sleep in `on` returns the reconciled timestamp, and a negative
sleep in the final block of `trigger` raises `ValueError`. -/
theorem C2_witness :
    (nd_on katC2 (some 100) (some 5) 0 50).2 = .ok 100 ∧
    (trigger_tail katC2 100 0 300).2 = .error .valueError := by
  have hsw : _switch_on_off_ katC2 (pyOrTs (some 100) (some 5) 0) 1
      = ([⟨"m011", 100, 1, 1⟩], .ok 100) := by
    norm_num [pyOrTs, _switch_on_off_, _set_dig_nd_, setDigRun, ndParams, setDigLoop,
      katC2, _katcp_reply_, katcpReplyFold, dictGet, _nd_log_msg_, pySorted, npMean]
  have hoff : off katC2 (some 100) (some _DEFAULT_LEAD_TIME) 0
      = ([⟨"m011", 100, 0, 1⟩], .ok 100) := by
    norm_num [off, pyOrTs, _switch_on_off_, _set_dig_nd_, setDigRun, ndParams,
      setDigLoop, katC2, _katcp_reply_, katcpReplyFold, dictGet, _nd_log_msg_,
      pySorted, npMean, _DEFAULT_LEAD_TIME]
  exact ⟨(C2_amended_negative_sleep_raises.1 katC2 (some 100) (some 5) 0 50 _ 100 hsw).2
      (by norm_num),
    (C2_amended_negative_sleep_raises.2 katC2 100 0 300 _ 100 hoff).1 (by norm_num)⟩

/-- C3: counterexample to the claim that a simulated dispatch with `cycle=true`
echoes the requested timestamp.  In dry-run mode the loop still advances the
timestamp by `cycle_len * on_frac = 2` per antenna, and the advanced value
(1004, not the requested 1000) is what is returned. -/
theorem C3_counterexample :
    (_set_dig_nd_ katC3 1000 (some ndC3) 0 true).2 = .ok 1004 ∧ ((1004 : ℚ) ≠ 1000) := by
  constructor
  · norm_num [_set_dig_nd_, setDigRun, ndParams, setDigLoop, katC3, ndC3, pySorted,
      pySplitComma, splitCommaAux]
  · norm_num

/-- C3 (amended): in dry-run mode reconciliation is skipped and the loop's
final timestamp is returned: the requested timestamp advanced once per
non-skipped antenna by `cycle_len * on_frac` when `cycle=true`, and exactly the
requested timestamp when `cycle=false`. -/
theorem C3_amended_dry_run_echo (kat : Kat) (t : ℚ) (nd : Option NdSetup) (sw : ℚ)
    (cy : Bool) (hdry : kat.dry_run = true) :
    (_set_dig_nd_ kat t nd sw cy).2 =
      .ok (dryAdvance kat (ndParams kat nd sw).2.2 (ndParams kat nd sw).2.1 cy
        (pySorted (ndParams kat nd sw).1) t) ∧
    (cy = false → (_set_dig_nd_ kat t nd sw cy).2 = .ok t) := by
  refine ⟨set_dig_nd_dry kat t nd sw cy hdry, ?_⟩
  rintro rfl
  rw [set_dig_nd_dry kat t nd sw false hdry, dryAdvance_false]

/-- C3 witness: the amended statement applied at a concrete dry-run dispatch
with `cycle=false`, which does echo the requested timestamp. -/
theorem C3_witness :
    (_set_dig_nd_ katC3 1000 (some ndC3) 0 false).2 = .ok 1000 :=
  (C3_amended_dry_run_echo katC3 1000 (some ndC3) 0 false rfl).2 rfl

/-- C4: a `pattern` call whose setup has `cycle_len` strictly greater than the
band maximum raises `RuntimeError` before any dispatch: the trace is empty and
the caller's setup is returned untouched. -/
theorem C4_cycle_len_guard (kat : Kat) (s : NdSetup) (lt : Option ℚ) (n1 n2 M : ℚ)
    (hM : _get_max_cycle_len kat = .ok M) (h : s.cycle_len > M) :
    pattern kat s lt n1 n2 = ([], s, .error .runtimeError) := by
  unfold pattern
  rw [hM]
  simp [h]

/-- C4 witness: the guard applied at a dry-run context (band maximum 20) with a
21-second cycle length. -/
theorem C4_witness :
    pattern katC4 ⟨"all", 21, 1⟩ none 0 0 = ([], ⟨"all", 21, 1⟩, .error .runtimeError) :=
  C4_cycle_len_guard katC4 ⟨"all", 21, 1⟩ none 0 0 20
    (by simp +decide [_get_max_cycle_len, max_cycle_len, katC4]) (by norm_num)

/-- C5: counterexample to per-call immutability of the setup record.  A
successful `pattern` call with `antennas='all'` overwrites the caller's
`antennas` field in place with the subarray list, so the setup after the call
differs from the one passed in. -/
theorem C5_counterexample :
    (pattern katC5 ⟨"all", 10, 1/2⟩ none 0 0).2.1 ≠ (⟨"all", 10, 1/2⟩ : NdSetup) := by
  norm_num [pattern, _get_max_cycle_len, max_cycle_len, katC5, resolveAntennas, pyJoin,
    _set_time_, _eval_lead_time_, _DEFAULT_LEAD_TIME, _set_dig_nd_, setDigRun, ndParams,
    setDigLoop, pySorted, pySplitComma, splitCommaAux, timeSleep]
  decide

/-- C5 (amended): `pattern` preserves the caller's `cycle_len` and `on_frac`
fields, but the `antennas` field is overwritten in place with the resolved
subarray antenna list. -/
theorem C5_amended_fields_preserved (kat : Kat) (s : NdSetup) (lt : Option ℚ)
    (n1 n2 : ℚ) :
    (pattern kat s lt n1 n2).2.1.cycle_len = s.cycle_len ∧
      (pattern kat s lt n1 n2).2.1.on_frac = s.on_frac := by
  unfold pattern
  split
  · exact ⟨rfl, rfl⟩
  · split
    · exact ⟨rfl, rfl⟩
    · split
      split
      · exact ⟨rfl, rfl⟩
      · split
        · exact ⟨rfl, rfl⟩
        · exact ⟨rfl, rfl⟩

/-- C6: counterexample to the conjunction as claimed: `0` is non-negative, yet
`resolveLeadTime(0)` returns the default constant (5), not `0`, because Python
treats `0` as falsy. -/
theorem C6_counterexample :
    _eval_lead_time_ (some 0) = _DEFAULT_LEAD_TIME ∧ _eval_lead_time_ (some 0) ≠ 0 := by
  norm_num [_eval_lead_time_, _DEFAULT_LEAD_TIME]

/-- C6 (amended): for every strictly positive lead time the value is returned
unchanged; `0` and `None` both resolve to the system default; the resolver is a
total function (never fails). -/
theorem C6_amended_lead_time_resolution :
    (∀ x : ℚ, 0 < x → _eval_lead_time_ (some x) = x) ∧
      _eval_lead_time_ (some 0) = _DEFAULT_LEAD_TIME ∧
      _eval_lead_time_ none = _DEFAULT_LEAD_TIME := by
  refine ⟨fun x hx => ?_, by norm_num [_eval_lead_time_], rfl⟩
  simp [_eval_lead_time_, ne_of_gt hx]

/-- C6 witness: the amended statement applied at lead time 3. -/
theorem C6_witness : _eval_lead_time_ (some 3) = 3 :=
  C6_amended_lead_time_resolution.1 3 (by norm_num)

/-- C7: when every dispatch succeeds, antennas are dispatched in lexicographic
order independent of the order of the input list (the trace's antenna sequence
is the sorted input, it is sorted, and any permutation of the input sorts to
the same sequence), and with `cycle=true` the antenna at sorted position `i`
receives request timestamp `t0 + i * (cycle_len * on_frac)`. -/
theorem C7_lex_order_and_stagger (kat : Kat) (t0 : ℚ) (s : NdSetup) (cy : Bool)
    (hreq : goodReq kat s.on_frac s.cycle_len) :
    (_set_dig_nd_ kat t0 (some s) 0 cy).1.map Dispatch.ant
        = pySorted (pySplitComma s.antennas) ∧
    List.Sorted strOrder ((_set_dig_nd_ kat t0 (some s) 0 cy).1.map Dispatch.ant) ∧
    (∀ l : List String, l.Perm (pySplitComma s.antennas) →
        pySorted l = pySorted (pySplitComma s.antennas)) ∧
    (∀ (i : ℕ) (h : i < (_set_dig_nd_ kat t0 (some s) 0 true).1.length),
        ((_set_dig_nd_ kat t0 (some s) 0 true).1.get ⟨i, h⟩).timestamp
          = t0 + i * (s.cycle_len * s.on_frac)) := by
  have h1 : (_set_dig_nd_ kat t0 (some s) 0 cy).1.map Dispatch.ant
      = pySorted (pySplitComma s.antennas) := by
    rw [set_dig_nd_good_fst kat t0 s cy hreq, staggerTs_map_ant]
  refine ⟨h1, ?_, ?_, ?_⟩
  · rw [h1]
    exact pySorted_sorted _
  · intro l hp
    exact pySorted_of_perm hp
  · intro i h
    have htr := set_dig_nd_good_fst kat t0 s true hreq
    have h' : i < (staggerTs s.on_frac s.cycle_len true
        (pySorted (pySplitComma s.antennas)) t0).length := by
      rw [← htr]
      exact h
    rw [List.get_of_eq htr ⟨i, h⟩]
    exact staggerTs_get_timestamp s.on_frac s.cycle_len
      (pySorted (pySplitComma s.antennas)) t0 i h'

/-- C7 witness: dispatching the reversed-order antenna list `m02,m01` of
`ndC7` produces a trace whose antenna order is the sorted list. -/
theorem C7_witness :
    ((_set_dig_nd_ katC7 100 (some ndC7) 0 true).1).map Dispatch.ant
      = pySorted (pySplitComma ndC7.antennas) :=
  (C7_lex_order_and_stagger katC7 100 ndC7 true
    (fun a t => ⟨[0, t, ndC7.on_frac, ndC7.cycle_len], rfl, by norm_num⟩)).1

/-- C8: in live mode, when the dispatch loop succeeds with a non-empty list of
acknowledged timestamps, the reconciled timestamp returned is their arithmetic
mean and therefore lies between their minimum and maximum. -/
theorem C8_live_mean_of_acks (kat : Kat) (t : ℚ) (nd : Option NdSetup) (sw : ℚ)
    (cy : Bool) (tr : List Dispatch) (tsf : ℚ) (acks : List ℚ)
    (hdry : kat.dry_run = false)
    (hrun : setDigRun kat t nd sw cy = (tr, .ok (tsf, acks)))
    (hne : acks ≠ []) :
    (_set_dig_nd_ kat t nd sw cy).2 = .ok (acks.sum / acks.length) ∧
      listMin acks ≤ acks.sum / acks.length ∧
      acks.sum / acks.length ≤ listMax acks := by
  refine ⟨?_, listMin_le_mean acks hne, mean_le_listMax acks hne⟩
  unfold _set_dig_nd_
  rw [hrun]
  simp [hdry, npMean, List.length_eq_zero, hne]

/-- C8 witness: a live two-antenna fleet acknowledging 100 and 200 reconciles
to their mean, which lies within the acknowledged range. -/
theorem C8_witness :
    (_set_dig_nd_ katC8 1000 none 1 false).2
        = .ok (([100, 200] : List ℚ).sum / (([100, 200] : List ℚ).length : ℚ)) ∧
      listMin [100, 200] ≤ ([100, 200] : List ℚ).sum / (([100, 200] : List ℚ).length : ℚ) ∧
      ([100, 200] : List ℚ).sum / (([100, 200] : List ℚ).length : ℚ) ≤ listMax [100, 200] := by
  have hrun : setDigRun katC8 1000 none 1 false
      = ([⟨"m011", 1000, 1, 1⟩, ⟨"m022", 1000, 1, 1⟩], .ok (1000, [100, 200])) := by
    simp +decide [setDigRun, ndParams, setDigLoop, katC8, _katcp_reply_, katcpReplyFold,
      dictGet, _nd_log_msg_, pySorted]
  exact C8_live_mean_of_acks katC8 1000 none 1 false _ 1000 [100, 200] rfl hrun (by simp)

/-- C9: counterexample to the claimed on-fraction invariant.  A dry-run
`trigger` with duration 25 and lead time 30 takes the short-duration branch and
dispatches a pattern with `on_frac = 25/20 = 5/4 > 1`. -/
theorem C9_counterexample :
    ((trigger katC9 (some 25) (some 30) 0 0 0 0 0).1).map Dispatch.on_fraction
        = [5/4, 0] ∧ ¬ ((5 : ℚ)/4 ≤ 1) := by
  constructor
  · norm_num [trigger, _eval_lead_time_, _get_max_cycle_len, max_cycle_len, katC9,
      pattern, resolveAntennas, pyJoin, _set_time_, _DEFAULT_LEAD_TIME, _set_dig_nd_,
      setDigRun, ndParams, setDigLoop, pySorted, pySplitComma, splitCommaAux, timeSleep,
      trigger_tail, off, pyOrTs, _switch_on_off_]
  · norm_num

/-- C9 (amended): `on` always dispatches with on-fraction 1 and `off` with 0,
both within the unit interval; the short-duration branch of `trigger` keeps
every dispatched on-fraction within the unit interval precisely when
`0 ≤ duration ≤ maxCycleLength` (its pattern dispatch carries
`duration / maxCycleLength` and its switch-off carries 0); `pattern` itself
forwards the caller's on-fraction unvalidated. -/
theorem C9_amended_on_fraction_ranges :
    (∀ (kat : Kat) (ts lt : Option ℚ) (n1 n2 : ℚ) (d : Dispatch),
      d ∈ (nd_on kat ts lt n1 n2).1 → 0 ≤ d.on_fraction ∧ d.on_fraction ≤ 1) ∧
    (∀ (kat : Kat) (ts lt : Option ℚ) (n1 : ℚ) (d : Dispatch),
      d ∈ (off kat ts lt n1).1 → 0 ≤ d.on_fraction ∧ d.on_fraction ≤ 1) ∧
    (∀ (kat : Kat) (dur : ℚ) (lt : Option ℚ) (n1 n2 n3 n4 n5 M : ℚ) (d : Dispatch),
      _get_max_cycle_len kat = .ok M → 0 < M → 0 ≤ dur →
      dur ≤ _eval_lead_time_ lt → dur ≤ M →
      d ∈ (trigger kat (some dur) lt n1 n2 n3 n4 n5).1 →
      0 ≤ d.on_fraction ∧ d.on_fraction ≤ 1) := by
  refine ⟨?_, ?_, ?_⟩
  · intro kat ts lt n1 n2 d hd
    rw [nd_on_mem_onf kat ts lt n1 n2 d hd]
    norm_num
  · intro kat ts lt n1 d hd
    rw [off_mem_onf kat ts lt n1 d hd]
    norm_num
  · intro kat dur lt n1 n2 n3 n4 n5 M d hM hMpos hdur0 hdurle hdurM hd
    have hfrac : 0 ≤ dur / M ∧ dur / M ≤ 1 :=
      ⟨div_nonneg hdur0 hMpos.le, (div_le_one hMpos).mpr hdurM⟩
    rw [trigger] at hd
    rw [if_neg (not_lt.mpr hdurle)] at hd
    split at hd
    · rename_i e heq
      rw [hM] at heq
      simp at heq
    · rename_i cl heq
      rw [hM] at heq
      injection heq with hclM
      subst hclM
      split at hd
      · rename_i tr x e hp
        have hdp : d ∈ (pattern kat ⟨"all", M, dur / M⟩
            (some (_eval_lead_time_ lt)) n1 n2).1 := by
          rw [hp]
          exact hd
        have := pattern_mem_onf kat ⟨"all", M, dur / M⟩
          (some (_eval_lead_time_ lt)) n1 n2 d hdp
        rw [this]
        exact hfrac
      · rename_i tr x y hp
        split at hd
        rename_i tr2 r ht
        rcases List.mem_append.mp hd with hmem | hmem
        · have hdp : d ∈ (pattern kat ⟨"all", M, dur / M⟩
              (some (_eval_lead_time_ lt)) n1 n2).1 := by
            rw [hp]
            exact hmem
          have := pattern_mem_onf kat ⟨"all", M, dur / M⟩
            (some (_eval_lead_time_ lt)) n1 n2 d hdp
          rw [this]
          exact hfrac
        · have hdp : d ∈ (trigger_tail kat
              (_set_time_ (some (_eval_lead_time_ lt)) n3) n4 n5).1 := by
            rw [ht]
            exact hmem
          have := trigger_tail_mem_onf kat
            (_set_time_ (some (_eval_lead_time_ lt)) n3) n4 n5 d hdp
          rw [this]
          norm_num

/-- C9 witness: the amended short-duration bound applied at a concrete
dispatch of `trigger(duration=10, lead=30)` in a dry-run context with band
maximum 20: the dispatched on-fraction `1/2` lies in the unit interval. -/
theorem C9_witness :
    (0 : ℚ) ≤ (⟨"m011", 30, 1/2, 20⟩ : Dispatch).on_fraction ∧
      (⟨"m011", 30, 1/2, 20⟩ : Dispatch).on_fraction ≤ 1 := by
  have hmem : (⟨"m011", 30, 1/2, 20⟩ : Dispatch)
      ∈ (trigger katC9 (some 10) (some 30) 0 0 0 0 0).1 := by
    norm_num [trigger, _eval_lead_time_, _get_max_cycle_len, max_cycle_len, katC9,
      pattern, resolveAntennas, pyJoin, _set_time_, _DEFAULT_LEAD_TIME, _set_dig_nd_,
      setDigRun, ndParams, setDigLoop, pySorted, pySplitComma, splitCommaAux, timeSleep,
      trigger_tail, off, pyOrTs, _switch_on_off_]
  exact C9_amended_on_fraction_ranges.2.2 katC9 10 (some 30) 0 0 0 0 0 20 _
    (by simp +decide [_get_max_cycle_len, max_cycle_len, katC9]) (by norm_num)
    (by norm_num) (by norm_num [_eval_lead_time_]) (by norm_num) hmem

/-- C10: counterexample to the claim that the synchronizer returns normally
with a NaN mean when no antenna acknowledges.  With every dispatch raising
`ValueError`, `np.mean([])` is NaN and the completion log's `int(timestamp)`
then raises `ValueError`: the function raises instead of returning. -/
theorem C10_counterexample :
    (_set_dig_nd_ katC10 1000 none 1 false).2 = .error .valueError := by
  simp +decide [_set_dig_nd_, setDigRun, ndParams, setDigLoop, katC10, npMean, pySorted]

/-- C10 (amended): in live mode, whenever the dispatch loop completes with an
empty acknowledgement list, the synchronization fault path computes NaN and the
subsequent `int(NaN)` conversion raises `ValueError`; the synchronizer does not
return normally. -/
theorem C10_amended_empty_acks_raise (kat : Kat) (t : ℚ) (nd : Option NdSetup)
    (sw : ℚ) (cy : Bool) (tr : List Dispatch) (tsf : ℚ)
    (hdry : kat.dry_run = false)
    (hrun : setDigRun kat t nd sw cy = (tr, .ok (tsf, []))) :
    (_set_dig_nd_ kat t nd sw cy).2 = .error .valueError := by
  unfold _set_dig_nd_
  rw [hrun]
  simp [hdry, npMean]

/-- C10 witness: the amended statement applied at a concrete live fleet whose
every dispatch raises `ValueError`. -/
theorem C10_witness :
    (_set_dig_nd_ katC10 2000 none 1 false).2 = .error .valueError := by
  have hrun : setDigRun katC10 2000 none 1 false
      = ([⟨"m011", 2000, 1, 1⟩, ⟨"m022", 2000, 1, 1⟩], .ok (2000, [])) := by
    simp +decide [setDigRun, ndParams, setDigLoop, katC10, pySorted]
  exact C10_amended_empty_acks_raise katC10 2000 none 1 false _ 2000 rfl hrun

end Noisediode
